import Mathlib

/-!
Verification of the settings-resolution core of `static-web-server`
(`src/settings/mod.rs`): merging invocation (CLI) options with an optional
TOML configuration file and compiling the file's advanced rules
(custom headers, rewrites, redirects) into matcher-carrying runtime rules.

The embedding follows `Settings::get` in `src/settings/mod.rs`.  The
external collaborators that are not part of the visible source (the
`globset` crate's glob compiler/matcher, `hyper`'s `StatusCode::from_u16`,
the CLI parser's `General` field list and the file decoder's option
shapes) are modelled from the spec where noted.
-/

namespace SWS

/-- Modelled from the spec: the structured severity value a config file can
declare for the log level (the `file` module's log-level type is not under
`src/`).  Its `name` is the conventional upper-case textual name; the
resolver lower-cases it (`v.name().to_lowercase()` in the source). -/
inductive Severity where
  | error
  | warn
  | info
  | debug
  | trace
deriving DecidableEq

/-- Modelled from the spec: the textual name of a severity value. -/
def Severity.name : Severity → String
  | .error => "ERROR"
  | .warn => "WARN"
  | .info => "INFO"
  | .debug => "DEBUG"
  | .trace => "TRACE"

/-- Lower-case an ASCII letter, leaving every other character unchanged. -/
def lowerAscii (c : Char) : Char :=
  if 'A' ≤ c ∧ c ≤ 'Z' then Char.ofNat (c.toNat + 32) else c

/-- Modelled from the spec: `str::to_lowercase` as used on the severity
name (ASCII character-wise lower-casing). -/
def strToLower (s : String) : String :=
  ⟨s.data.map lowerAscii⟩

/-- Modelled from the spec: a compiled glob pattern (`globset::Glob`).
It retains exactly the source string it was compiled from. -/
structure Glob where
  glob : String
deriving DecidableEq

/-- Modelled from the spec: a ready-to-match glob matcher
(`globset::GlobMatcher`); it too records the pattern string it came from. -/
structure GlobMatcher where
  glob : String
deriving DecidableEq

/-- Modelled from the spec: syntactic well-formedness of a glob pattern,
character by character.  The failure mode the spec names is an unterminated
character class: a `[` that is never closed by a later `]`. -/
def globCharsOk : List Char → Bool
  | [] => true
  | c :: rest => (c != '[' || rest.contains ']') && globCharsOk rest

/-- Modelled from the spec: `globset::Glob::new` — compile a pattern
string, failing (`none`) on a malformed pattern such as an unterminated
character class. -/
def globNew (pattern : String) : Option Glob :=
  if globCharsOk pattern.toList then some { glob := pattern } else none

/-- Modelled from the spec: `Glob::compile_matcher`, which never fails. -/
def Glob.compile_matcher (g : Glob) : GlobMatcher :=
  { glob := g.glob }

/-- Modelled from the spec: fuel-bounded core of glob matching over
character lists: `*` matches any sequence, `?` any single character, any
other pattern character matches itself.  The fuel only serves termination
and is always supplied large enough by `GlobMatcher.is_match`. -/
def globMatchAux : Nat → List Char → List Char → Bool
  | 0, _, _ => false
  | _ + 1, [], [] => true
  | fuel + 1, '*' :: ps, [] => globMatchAux fuel ps []
  | fuel + 1, '*' :: ps, c :: cs =>
      globMatchAux fuel ps (c :: cs) || globMatchAux fuel ('*' :: ps) cs
  | fuel + 1, '?' :: ps, _ :: cs => globMatchAux fuel ps cs
  | fuel + 1, p :: ps, c :: cs => p == c && globMatchAux fuel ps cs
  | _ + 1, _ :: _, [] => false
  | _ + 1, [], _ :: _ => false

/-- Modelled from the spec: `GlobMatcher::is_match` on a path string. -/
def GlobMatcher.is_match (m : GlobMatcher) (path : String) : Bool :=
  globMatchAux (m.glob.length + path.length + 1) m.glob.toList path.toList

/-- Modelled from the spec: `hyper::StatusCode::from_u16`, which succeeds
exactly for the legal numeric range 100–999 (spec sections 3, 4.2 and 7). -/
def statusCodeFromU16 (code : Nat) : Option Nat :=
  if 100 ≤ code ∧ code ≤ 999 then some code else none

/-- The `General` invocation options (field list as read and rebuilt by
`Settings::get`; the windows-only fields are absent on this platform, as
the spec states for platforms without background-service execution). -/
structure General where
  host : String
  port : Nat
  root : String
  log_level : String
  config_file : Option String
  cache_control_headers : Bool
  compression : Bool
  page404 : String
  page50x : String
  http2 : Bool
  http2_tls_cert : Option String
  http2_tls_key : Option String
  security_headers : Bool
  cors_allow_origins : List String
  cors_allow_headers : List String
  directory_listing : Bool
  directory_listing_order : Nat
  basic_auth : String
  fd : Option Nat
  threads_multiplier : Nat
  grace_period : Nat
  page_fallback : Option String
  log_remote_address : Bool
  redirect_trailing_slash : Bool
deriving DecidableEq

/-- The file's `general` section: every field individually optional
(shapes mirrored from the accesses in `Settings::get`; the decoder itself
is external). -/
structure FileGeneral where
  host : Option String
  port : Option Nat
  root : Option String
  log_level : Option Severity
  cache_control_headers : Option Bool
  compression : Option Bool
  page404 : Option String
  page50x : Option String
  http2 : Option Bool
  http2_tls_cert : Option String
  http2_tls_key : Option String
  security_headers : Option Bool
  cors_allow_origins : Option (List String)
  cors_allow_headers : Option (List String)
  directory_listing : Option Bool
  directory_listing_order : Option Nat
  basic_auth : Option String
  fd : Option Nat
  threads_multiplier : Option Nat
  grace_period : Option Nat
  page_fallback : Option String
  log_remote_address : Option Bool
  redirect_trailing_slash : Option Bool
deriving DecidableEq

/-- A declared `[advanced.headers]` file entry: a glob source string and a
mapping of header names to values. -/
structure FileHeaders where
  source : String
  headers : List (String × String)
deriving DecidableEq

/-- A declared `[advanced.rewrites]` file entry. -/
structure FileRewrites where
  source : String
  destination : String
deriving DecidableEq

/-- A declared `[advanced.redirects]` file entry; `kind` is the declared
integer status code (a `u16` after the source's `as u16` cast). -/
structure FileRedirects where
  source : String
  destination : String
  kind : Nat
deriving DecidableEq

/-- The file's `advanced` section: three independent optional entry lists. -/
structure FileAdvanced where
  headers : Option (List FileHeaders)
  rewrites : Option (List FileRewrites)
  redirects : Option (List FileRedirects)
deriving DecidableEq

/-- The decoded configuration file: optional `general` and `advanced`
sections (`file::Settings`). -/
structure FileSettings where
  general : Option FileGeneral
  advanced : Option FileAdvanced
deriving DecidableEq

/-- The compiled `Headers` rule (`pub struct Headers`). -/
structure Headers where
  source : GlobMatcher
  headers : List (String × String)
deriving DecidableEq

/-- The compiled `Rewrites` rule (`pub struct Rewrites`). -/
structure Rewrites where
  source : GlobMatcher
  destination : String
deriving DecidableEq

/-- The compiled `Redirects` rule (`pub struct Redirects`); `kind` is the
validated status code. -/
structure Redirects where
  source : GlobMatcher
  destination : String
  kind : Nat
deriving DecidableEq

/-- The compiled `advanced` options (`pub struct Advanced`). -/
structure Advanced where
  headers : Option (List Headers)
  rewrites : Option (List Rewrites)
  redirects : Option (List Redirects)
deriving DecidableEq

/-- The final resolved value (`pub struct Settings`). -/
structure Settings where
  general : General
  advanced : Option Advanced
deriving DecidableEq

/-- The error taxonomy of the resolution (`anyhow` context strings in the
source, named per the spec's section 7 taxonomy).  `GlobCompileError`
carries the rule kind and the literal pattern; `StatusCodeError` carries
the offending numeric value. -/
inductive ConfigError where
  | PathResolutionError (msg : String)
  | FileDecodeError (msg : String)
  | GlobCompileError (kind : String) (pattern : String)
  | StatusCodeError (code : Nat)
deriving DecidableEq

/-- The headers compilation loop of `Settings::get` (lines 192–215): one
compiled entry pushed per declared entry, in order; the first glob that
fails to compile aborts with its kind and pattern. -/
def compileHeadersEntries : List FileHeaders → Except ConfigError (List Headers)
  | [] => .ok []
  | e :: rest =>
    match globNew e.source with
    | none => .error (.GlobCompileError "header" e.source)
    | some g =>
      match compileHeadersEntries rest with
      | .error err => .error err
      | .ok v => .ok ({ source := g.compile_matcher, headers := e.headers } :: v)

/-- The rewrites compilation loop of `Settings::get` (lines 217–241). -/
def compileRewritesEntries : List FileRewrites → Except ConfigError (List Rewrites)
  | [] => .ok []
  | e :: rest =>
    match globNew e.source with
    | none => .error (.GlobCompileError "rewrite" e.source)
    | some g =>
      match compileRewritesEntries rest with
      | .error err => .error err
      | .ok v => .ok ({ source := g.compile_matcher, destination := e.destination } :: v)

/-- The redirects compilation loop of `Settings::get` (lines 243–271):
glob compilation first, then status-code validation via
`StatusCode::from_u16`. -/
def compileRedirectsEntries : List FileRedirects → Except ConfigError (List Redirects)
  | [] => .ok []
  | e :: rest =>
    match globNew e.source with
    | none => .error (.GlobCompileError "redirect" e.source)
    | some g =>
      match statusCodeFromU16 e.kind with
      | none => .error (.StatusCodeError e.kind)
      | some k =>
        match compileRedirectsEntries rest with
        | .error err => .error err
        | .ok v =>
          .ok ({ source := g.compile_matcher, destination := e.destination, kind := k } :: v)

/-- The `headers` arm of the `advanced` block (lines 192–215): an absent
list stays `None`; a declared one is compiled entry by entry. -/
def compileOptHeaders : Option (List FileHeaders) → Except ConfigError (Option (List Headers))
  | some entries => (compileHeadersEntries entries).map some
  | none => .ok none

/-- The `rewrites` arm of the `advanced` block (lines 217–241). -/
def compileOptRewrites : Option (List FileRewrites) → Except ConfigError (Option (List Rewrites))
  | some entries => (compileRewritesEntries entries).map some
  | none => .ok none

/-- The `redirects` arm of the `advanced` block (lines 243–271). -/
def compileOptRedirects :
    Option (List FileRedirects) → Except ConfigError (Option (List Redirects))
  | some entries => (compileRedirectsEntries entries).map some
  | none => .ok none

/-- The `advanced` block of `Settings::get` (lines 190–278): the three
kinds compiled independently when declared, sequentially, with any failure
aborting the whole resolution. -/
def compileAdvanced (adv : FileAdvanced) : Except ConfigError Advanced :=
  match compileOptHeaders adv.headers with
  | .error err => .error err
  | .ok headers_entries =>
    match compileOptRewrites adv.rewrites with
    | .error err => .error err
    | .ok rewrites_entries =>
      match compileOptRedirects adv.redirects with
      | .error err => .error err
      | .ok redirects_entries =>
        .ok { headers := headers_entries
              rewrites := rewrites_entries
              redirects := redirects_entries }

/-- The field-by-field general override of `Settings::get` (lines
111–187): each field the file's general section provides replaces the
invocation value; each field it omits keeps the invocation value; the log
level is adopted as the lower-cased textual name of the declared severity. -/
def overrideGeneral (opts : General) (general : FileGeneral) : General :=
  { opts with
    host := match general.host with | some v => v | none => opts.host
    port := match general.port with | some v => v | none => opts.port
    root := match general.root with | some v => v | none => opts.root
    log_level := match general.log_level with
      | some v => strToLower v.name
      | none => opts.log_level
    cache_control_headers := match general.cache_control_headers with
      | some v => v
      | none => opts.cache_control_headers
    compression := match general.compression with
      | some v => v
      | none => opts.compression
    page404 := match general.page404 with | some v => v | none => opts.page404
    page50x := match general.page50x with | some v => v | none => opts.page50x
    http2 := match general.http2 with | some v => v | none => opts.http2
    http2_tls_cert := match general.http2_tls_cert with
      | some v => some v
      | none => opts.http2_tls_cert
    http2_tls_key := match general.http2_tls_key with
      | some v => some v
      | none => opts.http2_tls_key
    security_headers := match general.security_headers with
      | some v => v
      | none => opts.security_headers
    cors_allow_origins := match general.cors_allow_origins with
      | some v => v
      | none => opts.cors_allow_origins
    cors_allow_headers := match general.cors_allow_headers with
      | some v => v
      | none => opts.cors_allow_headers
    directory_listing := match general.directory_listing with
      | some v => v
      | none => opts.directory_listing
    directory_listing_order := match general.directory_listing_order with
      | some v => v
      | none => opts.directory_listing_order
    basic_auth := match general.basic_auth with
      | some v => v
      | none => opts.basic_auth
    fd := match general.fd with | some v => some v | none => opts.fd
    threads_multiplier := match general.threads_multiplier with
      | some v => v
      | none => opts.threads_multiplier
    grace_period := match general.grace_period with
      | some v => v
      | none => opts.grace_period
    page_fallback := match general.page_fallback with
      | some v => some v
      | none => opts.page_fallback
    log_remote_address := match general.log_remote_address with
      | some v => v
      | none => opts.log_remote_address
    redirect_trailing_slash := match general.redirect_trailing_slash with
      | some v => v
      | none => opts.redirect_trailing_slash }

/-- The `if let Some(general) = settings.general` step of `Settings::get`
(line 111): the file's general section, when present, overrides the
invocation values field by field; when absent, the invocation values
stand. -/
def resolveFileGeneral (base : General) : Option FileGeneral → General
  | some g => overrideGeneral base g
  | none => base

/-- The file-system and decoder effects `Settings::get` performs, made
explicit: `Path::is_file`, `Path::canonicalize` (failure is fatal) and
`file::Settings::read` (decode failure is fatal, with its message). -/
structure FileSystem where
  isFile : String → Bool
  canonicalize : String → Option String
  readSettings : String → Except String FileSettings

/-- `Settings::get` (lines 59–317): resolve invocation options against the
optional config file.  A supplied path that is not an existing regular
file is silently ignored; an existing one is canonicalized (fatal on
failure), decoded (fatal on failure), its `general` section merged
field-by-field and its `advanced` section compiled all-or-nothing. -/
def Settings.get (fs : FileSystem) (opts : General) : Except ConfigError Settings :=
  match opts.config_file with
  | some p =>
    if fs.isFile p then
      match fs.canonicalize p with
      | none => .error (.PathResolutionError "error resolving toml config file path")
      | some path_resolved =>
        match fs.readSettings path_resolved with
        | .error msg => .error (.FileDecodeError msg)
        | .ok settings =>
          let general :=
            resolveFileGeneral { opts with config_file := some path_resolved } settings.general
          match settings.advanced with
          | some adv =>
            match compileAdvanced adv with
            | .error err => .error err
            | .ok a => .ok { general := general, advanced := some a }
          | none => .ok { general := general, advanced := none }
    else .ok { general := opts, advanced := none }
  | none => .ok { general := opts, advanced := none }

/-- A sample invocation-defaults value used to instantiate witnesses. -/
def sampleOpts : General :=
  { host := "::"
    port := 8080
    root := "./public"
    log_level := "error"
    config_file := some "config.toml"
    cache_control_headers := true
    compression := true
    page404 := "./404.html"
    page50x := "./50x.html"
    http2 := false
    http2_tls_cert := none
    http2_tls_key := none
    security_headers := false
    cors_allow_origins := []
    cors_allow_headers := []
    directory_listing := false
    directory_listing_order := 6
    basic_auth := ""
    fd := none
    threads_multiplier := 1
    grace_period := 0
    page_fallback := none
    log_remote_address := false
    redirect_trailing_slash := true }

/-- A sample file `general` section setting some fields and omitting
others, used to instantiate witnesses. -/
def sampleFileGeneral : FileGeneral :=
  { host := none
    port := some 9090
    root := none
    log_level := some .debug
    cache_control_headers := none
    compression := some false
    page404 := none
    page50x := none
    http2 := none
    http2_tls_cert := none
    http2_tls_key := none
    security_headers := none
    cors_allow_origins := some ["https://a.example", "https://b.example"]
    cors_allow_headers := none
    directory_listing := none
    directory_listing_order := none
    basic_auth := none
    fd := none
    threads_multiplier := none
    grace_period := none
    page_fallback := none
    log_remote_address := none
    redirect_trailing_slash := none }

lemma globNew_glob {s : String} {g : Glob} (h : globNew s = some g) : g.glob = s := by
  unfold globNew at h
  split at h
  · cases h; rfl
  · cases h

lemma statusCodeFromU16_ok {c k : Nat} (h : statusCodeFromU16 c = some k) :
    k = c ∧ 100 ≤ c ∧ c ≤ 999 := by
  unfold statusCodeFromU16 at h
  split at h
  · cases h; exact ⟨rfl, by assumption⟩
  · cases h

lemma compileHeadersEntries_ok_get {l : List FileHeaders} {v : List Headers}
    (h : compileHeadersEntries l = .ok v) :
    v.length = l.length ∧
      ∀ i : Nat, (v[i]?).map (fun r => (r.source.glob, r.headers)) =
        (l[i]?).map (fun e => (e.source, e.headers)) := by
  induction l generalizing v with
  | nil =>
    simp only [compileHeadersEntries] at h
    cases h
    simp
  | cons e rest ih =>
    simp only [compileHeadersEntries] at h
    cases hg : globNew e.source with
    | none => rw [hg] at h; cases h
    | some g =>
      rw [hg] at h
      cases hr : compileHeadersEntries rest with
      | error err => rw [hr] at h; cases h
      | ok w =>
        rw [hr] at h
        cases h
        obtain ⟨ih1, ih2⟩ := ih hr
        refine ⟨by simp [ih1], fun i => ?_⟩
        cases i with
        | zero => simp [Glob.compile_matcher, globNew_glob hg]
        | succ j => simpa using ih2 j

lemma compileHeadersEntries_ok_globs {l : List FileHeaders} {v : List Headers}
    (h : compileHeadersEntries l = .ok v) :
    ∀ e ∈ l, (globNew e.source).isSome := by
  induction l generalizing v with
  | nil => simp
  | cons e rest ih =>
    simp only [compileHeadersEntries] at h
    cases hg : globNew e.source with
    | none => rw [hg] at h; cases h
    | some g =>
      rw [hg] at h
      cases hr : compileHeadersEntries rest with
      | error err => rw [hr] at h; cases h
      | ok w =>
        intro x hx
        rcases List.mem_cons.mp hx with rfl | hx
        · simp [hg]
        · exact ih hr x hx

lemma compileHeadersEntries_error {l : List FileHeaders} {err : ConfigError}
    (h : compileHeadersEntries l = .error err) :
    ∃ e ∈ l, err = .GlobCompileError "header" e.source ∧ globNew e.source = none := by
  induction l with
  | nil => simp only [compileHeadersEntries] at h; cases h
  | cons e rest ih =>
    simp only [compileHeadersEntries] at h
    cases hg : globNew e.source with
    | none => rw [hg] at h; cases h; exact ⟨e, by simp, rfl, hg⟩
    | some g =>
      rw [hg] at h
      cases hr : compileHeadersEntries rest with
      | error err2 =>
        rw [hr] at h
        cases h
        obtain ⟨x, hx, hshape⟩ := ih hr
        exact ⟨x, List.mem_cons_of_mem e hx, hshape⟩
      | ok w => rw [hr] at h; cases h

lemma compileRewritesEntries_ok_get {l : List FileRewrites} {v : List Rewrites}
    (h : compileRewritesEntries l = .ok v) :
    v.length = l.length ∧
      ∀ i : Nat, (v[i]?).map (fun r => (r.source.glob, r.destination)) =
        (l[i]?).map (fun e => (e.source, e.destination)) := by
  induction l generalizing v with
  | nil =>
    simp only [compileRewritesEntries] at h
    cases h
    simp
  | cons e rest ih =>
    simp only [compileRewritesEntries] at h
    cases hg : globNew e.source with
    | none => rw [hg] at h; cases h
    | some g =>
      rw [hg] at h
      cases hr : compileRewritesEntries rest with
      | error err => rw [hr] at h; cases h
      | ok w =>
        rw [hr] at h
        cases h
        obtain ⟨ih1, ih2⟩ := ih hr
        refine ⟨by simp [ih1], fun i => ?_⟩
        cases i with
        | zero => simp [Glob.compile_matcher, globNew_glob hg]
        | succ j => simpa using ih2 j

lemma compileRewritesEntries_ok_globs {l : List FileRewrites} {v : List Rewrites}
    (h : compileRewritesEntries l = .ok v) :
    ∀ e ∈ l, (globNew e.source).isSome := by
  induction l generalizing v with
  | nil => simp
  | cons e rest ih =>
    simp only [compileRewritesEntries] at h
    cases hg : globNew e.source with
    | none => rw [hg] at h; cases h
    | some g =>
      rw [hg] at h
      cases hr : compileRewritesEntries rest with
      | error err => rw [hr] at h; cases h
      | ok w =>
        intro x hx
        rcases List.mem_cons.mp hx with rfl | hx
        · simp [hg]
        · exact ih hr x hx

lemma compileRewritesEntries_error {l : List FileRewrites} {err : ConfigError}
    (h : compileRewritesEntries l = .error err) :
    ∃ e ∈ l, err = .GlobCompileError "rewrite" e.source ∧ globNew e.source = none := by
  induction l with
  | nil => simp only [compileRewritesEntries] at h; cases h
  | cons e rest ih =>
    simp only [compileRewritesEntries] at h
    cases hg : globNew e.source with
    | none => rw [hg] at h; cases h; exact ⟨e, by simp, rfl, hg⟩
    | some g =>
      rw [hg] at h
      cases hr : compileRewritesEntries rest with
      | error err2 =>
        rw [hr] at h
        cases h
        obtain ⟨x, hx, hshape⟩ := ih hr
        exact ⟨x, List.mem_cons_of_mem e hx, hshape⟩
      | ok w => rw [hr] at h; cases h

lemma compileRedirectsEntries_ok_get {l : List FileRedirects} {v : List Redirects}
    (h : compileRedirectsEntries l = .ok v) :
    v.length = l.length ∧
      ∀ i : Nat, (v[i]?).map (fun r => (r.source.glob, r.destination, r.kind)) =
        (l[i]?).map (fun e => (e.source, e.destination, e.kind)) := by
  induction l generalizing v with
  | nil =>
    simp only [compileRedirectsEntries] at h
    cases h
    simp
  | cons e rest ih =>
    simp only [compileRedirectsEntries] at h
    cases hg : globNew e.source with
    | none => rw [hg] at h; cases h
    | some g =>
      rw [hg] at h
      cases hs : statusCodeFromU16 e.kind with
      | none => rw [hs] at h; cases h
      | some k =>
        rw [hs] at h
        cases hr : compileRedirectsEntries rest with
        | error err => rw [hr] at h; cases h
        | ok w =>
          rw [hr] at h
          cases h
          obtain ⟨ih1, ih2⟩ := ih hr
          refine ⟨by simp [ih1], fun i => ?_⟩
          cases i with
          | zero =>
            simp [Glob.compile_matcher, globNew_glob hg, (statusCodeFromU16_ok hs).1]
          | succ j => simpa using ih2 j

lemma compileRedirectsEntries_ok_all {l : List FileRedirects} {v : List Redirects}
    (h : compileRedirectsEntries l = .ok v) :
    ∀ e ∈ l, (globNew e.source).isSome ∧ 100 ≤ e.kind ∧ e.kind ≤ 999 := by
  induction l generalizing v with
  | nil => simp
  | cons e rest ih =>
    simp only [compileRedirectsEntries] at h
    cases hg : globNew e.source with
    | none => rw [hg] at h; cases h
    | some g =>
      rw [hg] at h
      cases hs : statusCodeFromU16 e.kind with
      | none => rw [hs] at h; cases h
      | some k =>
        rw [hs] at h
        cases hr : compileRedirectsEntries rest with
        | error err => rw [hr] at h; cases h
        | ok w =>
          intro x hx
          rcases List.mem_cons.mp hx with rfl | hx
          · exact ⟨by simp [hg], (statusCodeFromU16_ok hs).2⟩
          · exact ih hr x hx

lemma compileRedirectsEntries_error {l : List FileRedirects} {err : ConfigError}
    (h : compileRedirectsEntries l = .error err) :
    ∃ e ∈ l,
      (err = .GlobCompileError "redirect" e.source ∧ globNew e.source = none) ∨
      (err = .StatusCodeError e.kind ∧ ¬(100 ≤ e.kind ∧ e.kind ≤ 999)) := by
  induction l with
  | nil => simp only [compileRedirectsEntries] at h; cases h
  | cons e rest ih =>
    simp only [compileRedirectsEntries] at h
    cases hg : globNew e.source with
    | none => rw [hg] at h; cases h; exact ⟨e, by simp, Or.inl ⟨rfl, hg⟩⟩
    | some g =>
      rw [hg] at h
      cases hs : statusCodeFromU16 e.kind with
      | none =>
        rw [hs] at h
        cases h
        refine ⟨e, by simp, Or.inr ⟨rfl, fun hrange => ?_⟩⟩
        simp [statusCodeFromU16, hrange] at hs
      | some k =>
        rw [hs] at h
        cases hr : compileRedirectsEntries rest with
        | error err2 =>
          rw [hr] at h
          cases h
          obtain ⟨x, hx, hshape⟩ := ih hr
          exact ⟨x, List.mem_cons_of_mem e hx, hshape⟩
        | ok w => rw [hr] at h; cases h

lemma compileOptHeaders_error {o : Option (List FileHeaders)} {err : ConfigError}
    (h : compileOptHeaders o = .error err) :
    ∃ l, o = some l ∧ compileHeadersEntries l = .error err := by
  cases o with
  | none => simp [compileOptHeaders] at h
  | some l =>
    simp only [compileOptHeaders] at h
    cases hc : compileHeadersEntries l with
    | error e2 => rw [hc] at h; simp [Except.map] at h; exact ⟨l, rfl, by rw [hc, h]⟩
    | ok v => rw [hc] at h; simp [Except.map] at h

lemma compileOptRewrites_error {o : Option (List FileRewrites)} {err : ConfigError}
    (h : compileOptRewrites o = .error err) :
    ∃ l, o = some l ∧ compileRewritesEntries l = .error err := by
  cases o with
  | none => simp [compileOptRewrites] at h
  | some l =>
    simp only [compileOptRewrites] at h
    cases hc : compileRewritesEntries l with
    | error e2 => rw [hc] at h; simp [Except.map] at h; exact ⟨l, rfl, by rw [hc, h]⟩
    | ok v => rw [hc] at h; simp [Except.map] at h

lemma compileOptRedirects_error {o : Option (List FileRedirects)} {err : ConfigError}
    (h : compileOptRedirects o = .error err) :
    ∃ l, o = some l ∧ compileRedirectsEntries l = .error err := by
  cases o with
  | none => simp [compileOptRedirects] at h
  | some l =>
    simp only [compileOptRedirects] at h
    cases hc : compileRedirectsEntries l with
    | error e2 => rw [hc] at h; simp [Except.map] at h; exact ⟨l, rfl, by rw [hc, h]⟩
    | ok v => rw [hc] at h; simp [Except.map] at h

lemma compileOptHeaders_ok_of_entries {l : List FileHeaders} {v : List Headers}
    (h : compileHeadersEntries l = .ok v) :
    compileOptHeaders (some l) = .ok (some v) := by
  simp [compileOptHeaders, h, Except.map]

lemma compileOptRedirects_ok_of_entries {l : List FileRedirects} {v : List Redirects}
    (h : compileRedirectsEntries l = .ok v) :
    compileOptRedirects (some l) = .ok (some v) := by
  simp [compileOptRedirects, h, Except.map]

lemma compileOptHeaders_some_error {l : List FileHeaders} {err : ConfigError}
    (h : compileHeadersEntries l = .error err) :
    compileOptHeaders (some l) = .error err := by
  simp [compileOptHeaders, h, Except.map]

lemma compileAdvanced_error_shape {adv : FileAdvanced} {err : ConfigError}
    (h : compileAdvanced adv = .error err) :
    (∃ l, adv.headers = some l ∧ compileHeadersEntries l = .error err) ∨
    (∃ l, adv.rewrites = some l ∧ compileRewritesEntries l = .error err) ∨
    (∃ l, adv.redirects = some l ∧ compileRedirectsEntries l = .error err) := by
  unfold compileAdvanced at h
  cases hh : compileOptHeaders adv.headers with
  | error e2 =>
    rw [hh] at h
    cases h
    exact Or.inl (compileOptHeaders_error hh)
  | ok x =>
    rw [hh] at h
    cases hw : compileOptRewrites adv.rewrites with
    | error e2 =>
      rw [hw] at h
      cases h
      exact Or.inr (Or.inl (compileOptRewrites_error hw))
    | ok y =>
      rw [hw] at h
      cases hd : compileOptRedirects adv.redirects with
      | error e2 =>
        rw [hd] at h
        cases h
        exact Or.inr (Or.inr (compileOptRedirects_error hd))
      | ok z => rw [hd] at h; cases h

lemma compileAdvanced_ok_all {adv : FileAdvanced} {a : Advanced}
    (h : compileAdvanced adv = .ok a) :
    (∀ l, adv.headers = some l → ∀ e ∈ l, (globNew e.source).isSome) ∧
    (∀ l, adv.rewrites = some l → ∀ e ∈ l, (globNew e.source).isSome) ∧
    (∀ l, adv.redirects = some l →
      ∀ e ∈ l, (globNew e.source).isSome ∧ 100 ≤ e.kind ∧ e.kind ≤ 999) := by
  unfold compileAdvanced at h
  cases hh : compileOptHeaders adv.headers with
  | error e2 => rw [hh] at h; cases h
  | ok x =>
    rw [hh] at h
    cases hw : compileOptRewrites adv.rewrites with
    | error e2 => rw [hw] at h; cases h
    | ok y =>
      rw [hw] at h
      cases hd : compileOptRedirects adv.redirects with
      | error e2 => rw [hd] at h; cases h
      | ok z =>
        refine ⟨fun l hl => ?_, fun l hl => ?_, fun l hl => ?_⟩
        · rw [hl] at hh
          simp only [compileOptHeaders] at hh
          cases hc : compileHeadersEntries l with
          | error e2 => rw [hc] at hh; simp [Except.map] at hh
          | ok v => exact compileHeadersEntries_ok_globs hc
        · rw [hl] at hw
          simp only [compileOptRewrites] at hw
          cases hc : compileRewritesEntries l with
          | error e2 => rw [hc] at hw; simp [Except.map] at hw
          | ok v => exact compileRewritesEntries_ok_globs hc
        · rw [hl] at hd
          simp only [compileOptRedirects] at hd
          cases hc : compileRedirectsEntries l with
          | error e2 => rw [hc] at hd; simp [Except.map] at hd
          | ok v => exact compileRedirectsEntries_ok_all hc

/-- C2: for a declared redirect entry (with a compilable glob, so that the
status check is what decides), compilation succeeds exactly when the
declared code lies in the legal range 100–999; outside that range it
aborts with a `StatusCodeError` naming the offending numeric value; and
any successfully compiled redirect list had every declared code in range. -/
theorem redirect_status_code_validation (e : FileRedirects)
    (hg : (globNew e.source).isSome) :
    ((∃ res, compileRedirectsEntries [e] = .ok res) ↔ 100 ≤ e.kind ∧ e.kind ≤ 999) ∧
    (¬(100 ≤ e.kind ∧ e.kind ≤ 999) →
      compileRedirectsEntries [e] = .error (.StatusCodeError e.kind)) ∧
    ∀ (l : List FileRedirects) (res : List Redirects),
      compileRedirectsEntries l = .ok res → ∀ x ∈ l, 100 ≤ x.kind ∧ x.kind ≤ 999 := by
  obtain ⟨g, hg2⟩ := Option.isSome_iff_exists.mp hg
  refine ⟨⟨fun ⟨res, hres⟩ => (compileRedirectsEntries_ok_all hres e (by simp)).2,
      fun hrange => ?_⟩,
    fun hrange => ?_,
    fun l res h x hx => (compileRedirectsEntries_ok_all h x hx).2⟩
  · exact ⟨[{ source := g.compile_matcher, destination := e.destination, kind := e.kind }],
      by simp [compileRedirectsEntries, hg2, statusCodeFromU16, hrange]⟩
  · simp [compileRedirectsEntries, hg2, statusCodeFromU16, hrange]

/-- C2 witness: a concrete out-of-range redirect entry (code 50) aborts
with `StatusCodeError 50`. -/
theorem redirect_status_code_validation_witness :
    compileRedirectsEntries [⟨"/x", "/y", 50⟩] = .error (.StatusCodeError 50) :=
  (redirect_status_code_validation ⟨"/x", "/y", 50⟩ (by decide)).2.1 (by decide)

/-- C3 counterexample: the claim says a redirect entry with status code
999 fails compilation with `StatusCodeError`, but 999 lies inside the
legal range 100–999, so the entry compiles successfully and no error is
produced. -/
theorem redirect_kind_999_compiles :
    compileRedirectsEntries [⟨"/old", "/new", 999⟩] =
      .ok [{ source := ⟨"/old"⟩, destination := "/new", kind := 999 }] ∧
    ∀ err, compileRedirectsEntries [⟨"/old", "/new", 999⟩] ≠ .error err := by
  refine ⟨rfl, fun err h => ?_⟩
  rw [show compileRedirectsEntries [⟨"/old", "/new", 999⟩] =
      .ok [{ source := ⟨"/old"⟩, destination := "/new", kind := 999 }] from rfl] at h
  simp at h

/-- C3 amended: a redirect entry with status code 301 compiles and retains
exactly kind 301; one with code 50 fails with `StatusCodeError`; one with
code 999 is inside the legal range 100–999 and therefore also compiles,
retaining kind 999. -/
theorem redirect_kind_examples :
    compileRedirectsEntries [⟨"/old", "/new", 301⟩] =
      .ok [{ source := ⟨"/old"⟩, destination := "/new", kind := 301 }] ∧
    compileRedirectsEntries [⟨"/old", "/new", 50⟩] = .error (.StatusCodeError 50) ∧
    compileRedirectsEntries [⟨"/old", "/new", 999⟩] =
      .ok [{ source := ⟨"/old"⟩, destination := "/new", kind := 999 }] :=
  ⟨rfl, rfl, rfl⟩

/-- C5: per rule kind, a successfully compiled list has exactly one entry
per declared entry and, at every index, the compiled entry carries the
declared entry's source pattern and payload — declaration order is
preserved, nothing is reordered or deduplicated. -/
theorem compiled_lists_preserve_order :
    (∀ (l : List FileHeaders) (v : List Headers), compileHeadersEntries l = .ok v →
      v.length = l.length ∧
        ∀ i : Nat, (v[i]?).map (fun r => (r.source.glob, r.headers)) =
          (l[i]?).map (fun e => (e.source, e.headers))) ∧
    (∀ (l : List FileRewrites) (v : List Rewrites), compileRewritesEntries l = .ok v →
      v.length = l.length ∧
        ∀ i : Nat, (v[i]?).map (fun r => (r.source.glob, r.destination)) =
          (l[i]?).map (fun e => (e.source, e.destination))) ∧
    (∀ (l : List FileRedirects) (v : List Redirects), compileRedirectsEntries l = .ok v →
      v.length = l.length ∧
        ∀ i : Nat, (v[i]?).map (fun r => (r.source.glob, r.destination, r.kind)) =
          (l[i]?).map (fun e => (e.source, e.destination, e.kind))) :=
  ⟨fun _ _ h => compileHeadersEntries_ok_get h,
   fun _ _ h => compileRewritesEntries_ok_get h,
   fun _ _ h => compileRedirectsEntries_ok_get h⟩

/-- C5 witness: a concrete two-entry headers list compiles to a
two-entry list corresponding index by index. -/
theorem compiled_lists_preserve_order_witness :
    ([{ source := ⟨"a/*"⟩, headers := [("x-a", "1")] },
      { source := ⟨"b/*"⟩, headers := [("x-b", "2")] }] : List Headers).length =
      ([⟨"a/*", [("x-a", "1")]⟩, ⟨"b/*", [("x-b", "2")]⟩] : List FileHeaders).length ∧
    ∀ i : Nat,
      (([{ source := ⟨"a/*"⟩, headers := [("x-a", "1")] },
         { source := ⟨"b/*"⟩, headers := [("x-b", "2")] }] : List Headers)[i]?).map
          (fun r => (r.source.glob, r.headers)) =
      (([⟨"a/*", [("x-a", "1")]⟩, ⟨"b/*", [("x-b", "2")]⟩] : List FileHeaders)[i]?).map
          (fun e => (e.source, e.headers)) :=
  compiled_lists_preserve_order.1
    [⟨"a/*", [("x-a", "1")]⟩, ⟨"b/*", [("x-b", "2")]⟩]
    [{ source := ⟨"a/*"⟩, headers := [("x-a", "1")] },
     { source := ⟨"b/*"⟩, headers := [("x-b", "2")] }] rfl

/-- C8: the pattern `css/*.css`, compiled as a rule source, matches the
path `css/app.css` and does not match `js/app.js`. -/
theorem rewrite_glob_css_pattern :
    ∃ g, globNew "css/*.css" = some g ∧
      g.compile_matcher.is_match "css/app.css" = true ∧
      g.compile_matcher.is_match "js/app.js" = false :=
  ⟨⟨"css/*.css"⟩, rfl, rfl, rfl⟩

/-- An advanced section whose redirects list declares an out-of-range
status code (50) before an entry whose glob pattern (`[`) does not
compile. -/
def advStatusBeforeGlob : FileAdvanced :=
  { headers := none
    rewrites := none
    redirects := some [⟨"/a", "/d", 50⟩, ⟨"[", "/d", 301⟩] }

/-- A rewrites-only advanced section whose single entry has the
uncompilable glob pattern `[`. -/
def advBadRewriteGlob : FileAdvanced :=
  { headers := none
    rewrites := some [⟨"[", "/d"⟩]
    redirects := none }

/-- C4 counterexample: in `advStatusBeforeGlob` a declared entry's glob
source string (`[`, an unterminated character class) fails to compile,
yet the resolution aborts with `StatusCodeError 50` — the earlier redirect
entry's invalid status code — and not with any `GlobCompileError`. -/
theorem glob_failure_not_always_glob_error :
    globNew "[" = none ∧
    compileAdvanced advStatusBeforeGlob = .error (.StatusCodeError 50) ∧
    ∀ k p, compileAdvanced advStatusBeforeGlob ≠ .error (.GlobCompileError k p) := by
  refine ⟨rfl, rfl, fun k p h => ?_⟩
  rw [show compileAdvanced advStatusBeforeGlob = .error (.StatusCodeError 50) from rfl] at h
  simp at h

/-- C4 amended: if any declared entry's glob source string fails to
compile, the whole resolution aborts — no `Advanced` value is returned at
all — with an error that is either a `GlobCompileError` naming the rule
kind and the literal source pattern of a declared entry whose glob does
not compile, or (only when a redirect entry declaring an out-of-range
status code precedes the failing glob in compilation order) a
`StatusCodeError` naming that declared out-of-range code. -/
theorem glob_failure_aborts (adv : FileAdvanced)
    (h : (∃ l, adv.headers = some l ∧ ∃ e ∈ l, globNew e.source = none) ∨
         (∃ l, adv.rewrites = some l ∧ ∃ e ∈ l, globNew e.source = none) ∨
         (∃ l, adv.redirects = some l ∧ ∃ e ∈ l, globNew e.source = none)) :
    (∀ a, compileAdvanced adv ≠ .ok a) ∧
    ∃ err, compileAdvanced adv = .error err ∧
      ((∃ p, globNew p = none ∧
          ((err = .GlobCompileError "header" p ∧
             ∃ l, adv.headers = some l ∧ ∃ e ∈ l, e.source = p) ∨
           (err = .GlobCompileError "rewrite" p ∧
             ∃ l, adv.rewrites = some l ∧ ∃ e ∈ l, e.source = p) ∨
           (err = .GlobCompileError "redirect" p ∧
             ∃ l, adv.redirects = some l ∧ ∃ e ∈ l, e.source = p))) ∨
       (∃ c, err = .StatusCodeError c ∧ ¬(100 ≤ c ∧ c ≤ 999) ∧
          ∃ l, adv.redirects = some l ∧ ∃ e ∈ l, e.kind = c)) := by
  have hnotok : ∀ a, compileAdvanced adv ≠ .ok a := by
    intro a hok
    obtain ⟨ha1, ha2, ha3⟩ := compileAdvanced_ok_all hok
    rcases h with ⟨l, hl, e, he, hnone⟩ | ⟨l, hl, e, he, hnone⟩ | ⟨l, hl, e, he, hnone⟩
    · exact absurd (ha1 l hl e he) (by simp [hnone])
    · exact absurd (ha2 l hl e he) (by simp [hnone])
    · exact absurd (ha3 l hl e he).1 (by simp [hnone])
  refine ⟨hnotok, ?_⟩
  cases hc : compileAdvanced adv with
  | ok a => exact absurd hc (hnotok a)
  | error err =>
    refine ⟨err, rfl, ?_⟩
    rcases compileAdvanced_error_shape hc with ⟨l, hl, herr⟩ | ⟨l, hl, herr⟩ | ⟨l, hl, herr⟩
    · obtain ⟨e, he, heq, hnone⟩ := compileHeadersEntries_error herr
      exact Or.inl ⟨e.source, hnone, Or.inl ⟨heq, l, hl, e, he, rfl⟩⟩
    · obtain ⟨e, he, heq, hnone⟩ := compileRewritesEntries_error herr
      exact Or.inl ⟨e.source, hnone, Or.inr (Or.inl ⟨heq, l, hl, e, he, rfl⟩)⟩
    · obtain ⟨e, he, hshape⟩ := compileRedirectsEntries_error herr
      rcases hshape with ⟨heq, hnone⟩ | ⟨heq, hrange⟩
      · exact Or.inl ⟨e.source, hnone, Or.inr (Or.inr ⟨heq, l, hl, e, he, rfl⟩)⟩
      · exact Or.inr ⟨e.kind, heq, hrange, l, hl, e, he, rfl⟩

/-- C4 witness: a concrete advanced section whose only declared rule is a
rewrite with the uncompilable pattern `[` does not compile to the
rule-less `Advanced` value (the resolution aborts instead). -/
theorem glob_failure_aborts_witness :
    compileAdvanced advBadRewriteGlob ≠ .ok ⟨none, some [], none⟩ :=
  (glob_failure_aborts advBadRewriteGlob
    (Or.inr (Or.inl ⟨[⟨"[", "/d"⟩], rfl, ⟨"[", "/d"⟩, by simp, rfl⟩))).1
    ⟨none, some [], none⟩

/-- C1: the general-options resolution is field-independent
override-if-present: for every field, a value present in the file's
general section replaces the invocation value wholesale (booleans and the
CORS lists included, the log level as its lower-cased textual name), and
an absent field keeps the invocation value. -/
theorem general_override_per_field (opts : General) (g : FileGeneral) :
    (∀ v, g.host = some v → (overrideGeneral opts g).host = v) ∧
    (g.host = none → (overrideGeneral opts g).host = opts.host) ∧
    (∀ v, g.port = some v → (overrideGeneral opts g).port = v) ∧
    (g.port = none → (overrideGeneral opts g).port = opts.port) ∧
    (∀ v, g.root = some v → (overrideGeneral opts g).root = v) ∧
    (g.root = none → (overrideGeneral opts g).root = opts.root) ∧
    (∀ v, g.log_level = some v →
      (overrideGeneral opts g).log_level = strToLower v.name) ∧
    (g.log_level = none → (overrideGeneral opts g).log_level = opts.log_level) ∧
    (∀ v, g.cache_control_headers = some v →
      (overrideGeneral opts g).cache_control_headers = v) ∧
    (g.cache_control_headers = none →
      (overrideGeneral opts g).cache_control_headers = opts.cache_control_headers) ∧
    (∀ v, g.compression = some v → (overrideGeneral opts g).compression = v) ∧
    (g.compression = none → (overrideGeneral opts g).compression = opts.compression) ∧
    (∀ v, g.page404 = some v → (overrideGeneral opts g).page404 = v) ∧
    (g.page404 = none → (overrideGeneral opts g).page404 = opts.page404) ∧
    (∀ v, g.page50x = some v → (overrideGeneral opts g).page50x = v) ∧
    (g.page50x = none → (overrideGeneral opts g).page50x = opts.page50x) ∧
    (∀ v, g.http2 = some v → (overrideGeneral opts g).http2 = v) ∧
    (g.http2 = none → (overrideGeneral opts g).http2 = opts.http2) ∧
    (∀ v, g.http2_tls_cert = some v →
      (overrideGeneral opts g).http2_tls_cert = some v) ∧
    (g.http2_tls_cert = none →
      (overrideGeneral opts g).http2_tls_cert = opts.http2_tls_cert) ∧
    (∀ v, g.http2_tls_key = some v →
      (overrideGeneral opts g).http2_tls_key = some v) ∧
    (g.http2_tls_key = none →
      (overrideGeneral opts g).http2_tls_key = opts.http2_tls_key) ∧
    (∀ v, g.security_headers = some v →
      (overrideGeneral opts g).security_headers = v) ∧
    (g.security_headers = none →
      (overrideGeneral opts g).security_headers = opts.security_headers) ∧
    (∀ v, g.cors_allow_origins = some v →
      (overrideGeneral opts g).cors_allow_origins = v) ∧
    (g.cors_allow_origins = none →
      (overrideGeneral opts g).cors_allow_origins = opts.cors_allow_origins) ∧
    (∀ v, g.cors_allow_headers = some v →
      (overrideGeneral opts g).cors_allow_headers = v) ∧
    (g.cors_allow_headers = none →
      (overrideGeneral opts g).cors_allow_headers = opts.cors_allow_headers) ∧
    (∀ v, g.directory_listing = some v →
      (overrideGeneral opts g).directory_listing = v) ∧
    (g.directory_listing = none →
      (overrideGeneral opts g).directory_listing = opts.directory_listing) ∧
    (∀ v, g.directory_listing_order = some v →
      (overrideGeneral opts g).directory_listing_order = v) ∧
    (g.directory_listing_order = none →
      (overrideGeneral opts g).directory_listing_order = opts.directory_listing_order) ∧
    (∀ v, g.basic_auth = some v → (overrideGeneral opts g).basic_auth = v) ∧
    (g.basic_auth = none → (overrideGeneral opts g).basic_auth = opts.basic_auth) ∧
    (∀ v, g.fd = some v → (overrideGeneral opts g).fd = some v) ∧
    (g.fd = none → (overrideGeneral opts g).fd = opts.fd) ∧
    (∀ v, g.threads_multiplier = some v →
      (overrideGeneral opts g).threads_multiplier = v) ∧
    (g.threads_multiplier = none →
      (overrideGeneral opts g).threads_multiplier = opts.threads_multiplier) ∧
    (∀ v, g.grace_period = some v → (overrideGeneral opts g).grace_period = v) ∧
    (g.grace_period = none → (overrideGeneral opts g).grace_period = opts.grace_period) ∧
    (∀ v, g.page_fallback = some v →
      (overrideGeneral opts g).page_fallback = some v) ∧
    (g.page_fallback = none →
      (overrideGeneral opts g).page_fallback = opts.page_fallback) ∧
    (∀ v, g.log_remote_address = some v →
      (overrideGeneral opts g).log_remote_address = v) ∧
    (g.log_remote_address = none →
      (overrideGeneral opts g).log_remote_address = opts.log_remote_address) ∧
    (∀ v, g.redirect_trailing_slash = some v →
      (overrideGeneral opts g).redirect_trailing_slash = v) ∧
    (g.redirect_trailing_slash = none →
      (overrideGeneral opts g).redirect_trailing_slash = opts.redirect_trailing_slash) := by
  repeat' apply And.intro
  all_goals first
    | (intro v hv; simp [overrideGeneral, hv])
    | (intro hv; simp [overrideGeneral, hv])

/-- C1 witness: on a concrete pair, the file's declared port 9090 replaces
the invocation port, the declared CORS origin list replaces the
invocation's empty list wholesale, the declared boolean replaces the
invocation default, and the omitted host keeps the invocation value. -/
theorem general_override_per_field_witness :
    (overrideGeneral sampleOpts sampleFileGeneral).port = 9090 ∧
    (overrideGeneral sampleOpts sampleFileGeneral).cors_allow_origins =
      ["https://a.example", "https://b.example"] ∧
    (overrideGeneral sampleOpts sampleFileGeneral).compression = false ∧
    (overrideGeneral sampleOpts sampleFileGeneral).host = sampleOpts.host :=
  ⟨(general_override_per_field sampleOpts sampleFileGeneral).2.2.1 9090 rfl,
   (general_override_per_field sampleOpts sampleFileGeneral).2.2.2.2.2.2.2.2.2.2.2.2.2.2.2.2.2.2.2.2.2.2.2.2.1
     ["https://a.example", "https://b.example"] rfl,
   (general_override_per_field sampleOpts sampleFileGeneral).2.2.2.2.2.2.2.2.2.2.1
     false rfl,
   (general_override_per_field sampleOpts sampleFileGeneral).2.1 rfl⟩

/-- A file system on which no path is a regular file, used to instantiate
witnesses about the soft-fail path. -/
def fsNoFile : FileSystem :=
  { isFile := fun _ => false
    canonicalize := fun s => some s
    readSettings := fun _ => .error "unreadable" }

/-- A file system on which the config path exists but is not a regular
file (a directory, say) and whose canonicalization and decoding would
both misbehave if they were ever consulted. -/
def fsDirectory : FileSystem :=
  { isFile := fun _ => false
    canonicalize := fun _ => none
    readSettings := fun _ => .error "is a directory" }

/-- A file system whose config file decodes to a `general`-less document
with an `advanced` section declaring none of the three rule lists. -/
def fsAdvEmpty : FileSystem :=
  { isFile := fun _ => true
    canonicalize := fun s => some s
    readSettings := fun _ => .ok { general := none, advanced := some ⟨none, none, none⟩ } }

/-- A file system whose config file decodes to a document with no
`advanced` section at all. -/
def fsAdvAbsent : FileSystem :=
  { isFile := fun _ => true
    canonicalize := fun s => some s
    readSettings := fun _ => .ok { general := none, advanced := none } }

/-- C6: when the supplied config-file path is not an existing regular
file, `Settings::get` succeeds and returns exactly the invocation-only
configuration: the invocation general options unchanged and no advanced
options. -/
theorem missing_config_path_soft_fail (fs : FileSystem) (opts : General) (p : String)
    (h1 : opts.config_file = some p) (h2 : fs.isFile p = false) :
    Settings.get fs opts = .ok { general := opts, advanced := none } := by
  simp [Settings.get, h1, h2]

/-- C6 witness: a concrete missing path yields the invocation-only
settings with no error. -/
theorem missing_config_path_soft_fail_witness :
    Settings.get fsNoFile sampleOpts = .ok { general := sampleOpts, advanced := none } :=
  missing_config_path_soft_fail fsNoFile sampleOpts "config.toml" rfl rfl

/-- C9: a supplied path that exists but is not a regular file behaves
exactly like a missing path: no error, the invocation-only configuration
is returned, and the result does not depend on the canonicalization or
decoding behavior at all (any two file systems agreeing that the path is
not a regular file resolve identically), so the file is never read or
canonicalized. -/
theorem non_regular_path_ignored (fs fs2 : FileSystem) (opts : General) (p : String)
    (h1 : opts.config_file = some p) (h2 : fs.isFile p = false)
    (h3 : fs2.isFile = fs.isFile) :
    Settings.get fs opts = .ok { general := opts, advanced := none } ∧
    Settings.get fs2 opts = Settings.get fs opts := by
  have h4 : fs2.isFile p = false := by rw [h3]; exact h2
  constructor
  · simp [Settings.get, h1, h2]
  · simp [Settings.get, h1, h2, h4]

/-- C9 witness: a directory-like path resolves to the invocation-only
settings, identically for two file systems whose canonicalization and
decoding differ. -/
theorem non_regular_path_ignored_witness :
    Settings.get fsDirectory sampleOpts = .ok { general := sampleOpts, advanced := none } ∧
    Settings.get fsNoFile sampleOpts = Settings.get fsDirectory sampleOpts :=
  non_regular_path_ignored fsDirectory fsNoFile sampleOpts "config.toml" rfl rfl rfl

/-- C7: whenever the file's general section declares a log level, the
resolved `log_level` equals the lower-cased textual name of that severity
value, and that text is one of the five lowercase severity names the
invocation layer accepts — for every severity the file can declare. -/
theorem file_log_level_normalized (opts : General) (g : FileGeneral) (v : Severity)
    (h : g.log_level = some v) :
    (overrideGeneral opts g).log_level = strToLower v.name ∧
    (overrideGeneral opts g).log_level ∈
      (["error", "warn", "info", "debug", "trace"] : List String) := by
  have h1 : (overrideGeneral opts g).log_level = strToLower v.name := by
    simp [overrideGeneral, h]
  refine ⟨h1, ?_⟩
  rw [h1]
  cases v <;> simp [Severity.name] <;> decide

/-- C7 witness: a file declaring the `debug` severity resolves the log
level to the lowercase text `debug`. -/
theorem file_log_level_normalized_witness :
    (overrideGeneral sampleOpts sampleFileGeneral).log_level = "debug" :=
  (file_log_level_normalized sampleOpts sampleFileGeneral .debug rfl).1.trans (by decide)

/-- C10: a present `advanced` section declaring none of the three rule
lists resolves to `advanced = some` of an `Advanced` value with all three
lists `none` — distinguishable from an absent `advanced` section, which
resolves to `advanced = none`. -/
theorem advanced_empty_vs_absent (fs : FileSystem) (opts : General) (p q : String)
    (f : FileSettings)
    (h1 : opts.config_file = some p) (h2 : fs.isFile p = true)
    (h3 : fs.canonicalize p = some q) (h4 : fs.readSettings q = .ok f) :
    (f.advanced = some ⟨none, none, none⟩ →
      Settings.get fs opts = .ok
        { general := resolveFileGeneral { opts with config_file := some q } f.general
          advanced := some ⟨none, none, none⟩ }) ∧
    (f.advanced = none →
      Settings.get fs opts = .ok
        { general := resolveFileGeneral { opts with config_file := some q } f.general
          advanced := none }) ∧
    (some (⟨none, none, none⟩ : Advanced) ≠ (none : Option Advanced)) := by
  refine ⟨fun ha => ?_, fun ha => ?_, by simp⟩
  · simp [Settings.get, h1, h2, h3, h4, ha, compileAdvanced,
      compileOptHeaders, compileOptRewrites, compileOptRedirects]
  · simp [Settings.get, h1, h2, h3, h4, ha]

/-- C10 witness: concrete file systems exhibiting the two outcomes —
rule-less `advanced` section present versus `advanced` section absent. -/
theorem advanced_empty_vs_absent_witness :
    Settings.get fsAdvEmpty sampleOpts = .ok
      { general := { sampleOpts with config_file := some "config.toml" }
        advanced := some ⟨none, none, none⟩ } ∧
    Settings.get fsAdvAbsent sampleOpts = .ok
      { general := { sampleOpts with config_file := some "config.toml" }
        advanced := none } :=
  ⟨(advanced_empty_vs_absent fsAdvEmpty sampleOpts "config.toml" "config.toml"
      { general := none, advanced := some ⟨none, none, none⟩ } rfl rfl rfl rfl).1 rfl,
   (advanced_empty_vs_absent fsAdvAbsent sampleOpts "config.toml" "config.toml"
      { general := none, advanced := none } rfl rfl rfl rfl).2.1 rfl⟩

end SWS
